import Mathlib

/-!
Shallow embedding of the remote-synchronization subsystem of this repository
(safety gate, fetch/push result-line parsers and outcome classifier, progress
decoder, timeout contract).  The repository snapshot ships only the subsystem's
test suite; the component implementations themselves are therefore modelled
from the design specification, faithful to its words, and each such definition
carries a doc comment saying exactly which missing piece it models.
All definitions are executable and all machine integers are plain `Nat`
bitmasks, matching the bit-flag idiom the spec prescribes.
-/

namespace GitModel

/-! ### Character-list utilities

String processing is done over `List Char` with structural recursion so that
every definition evaluates by kernel reduction on concrete inputs. -/

/-- Boolean test that `p` is a prefix of `l`. -/
def isPrefixList : List Char → List Char → Bool
  | [], _ => true
  | _ :: _, [] => false
  | p :: ps, c :: cs => p = c && isPrefixList ps cs

/-- Boolean test that the pattern `pat` occurs as a contiguous sublist of `l`. -/
def containsList (pat : List Char) : List Char → Bool
  | [] => isPrefixList pat []
  | c :: t => isPrefixList pat (c :: t) || containsList pat t

/-- Split at the first occurrence of the (nonempty) pattern `pat`, returning
the parts before and after it, or `none` when `pat` does not occur. -/
def splitOnceList (pat : List Char) : List Char → Option (List Char × List Char)
  | [] => none
  | c :: t =>
    if isPrefixList pat (c :: t) && !pat.isEmpty then
      some ([], (c :: t).drop pat.length)
    else
      match splitOnceList pat t with
      | some (a, b) => some (c :: a, b)
      | none => none

/-- Split on every occurrence of the single separator character `sep`. -/
def splitListOnChar (sep : Char) : List Char → List (List Char)
  | [] => [[]]
  | c :: t =>
    let r := splitListOnChar sep t
    if c = sep then [] :: r
    else
      match r with
      | [] => [[c]]
      | h :: rs => (c :: h) :: rs

/-- Whitespace recognizer used by the trimming helpers. -/
def isSpaceChar (c : Char) : Bool :=
  c = ' ' || c = '\t' || c = '\n' || c = '\r'

/-- Drop leading whitespace characters. -/
def trimLeftList (l : List Char) : List Char :=
  l.dropWhile isSpaceChar

/-- Drop leading and trailing whitespace characters. -/
def trimList (l : List Char) : List Char :=
  ((trimLeftList l).reverse.dropWhile isSpaceChar).reverse

/-- Boolean substring test on strings, built on `containsList`. -/
def strContainsSub (s pat : String) : Bool :=
  containsList pat.toList s.toList

/-! ### Error taxonomy

The spec's error taxonomy (section 7): unsafe-protocol and unsafe-option
safety-gate failures, command errors, parse failures (ValueError-kind) and
commit-lookup failures of the repository collaborator. -/

/-- Error taxonomy of the remote-synchronization subsystem. -/
inductive GitError
  | unsafeProtocol (url : String)
  | unsafeOption (name : String)
  | valueError (msg : String)
  | lookupError (sha : String)
  | commandError (msg : String)
deriving DecidableEq

/-! ### SafetyGate -/

/-- Modelled from the spec: the deny-list of transport schemes known to permit
execution of arbitrary local commands or arbitrary file descriptor access
(the "ext" shell transport and the "fd" raw-descriptor transport).  The
SafetyGate implementation is missing from `src/`; only its tests are present. -/
def unsafeProtocolSchemes : List String := ["ext", "fd"]

/-- Modelled from the spec: the deny-list of option names the external
executable forwards verbatim to a remote-invoked helper program
(upload-pack / receive-pack / exec hooks). -/
def unsafeOptionNames : List String := ["upload-pack", "receive-pack", "exec"]

/-- Scheme extraction: the prefix of the URL before the first `::` or `://`
separator, or `none` when the URL has neither separator. -/
def schemeChars : List Char → Option (List Char)
  | ':' :: ':' :: _ => some []
  | ':' :: '/' :: '/' :: _ => some []
  | c :: t => (schemeChars t).map (fun r => c :: r)
  | [] => none

/-- Transport scheme of a URL (prefix before `::` or `://`), if any. -/
def urlScheme (url : String) : Option String :=
  (schemeChars url.toList).map String.mk

/-- A URL is unsafe when its scheme is on the deny-list (case-sensitive,
exact match, per the spec). -/
def urlIsUnsafe (url : String) : Bool :=
  match urlScheme url with
  | some s => unsafeProtocolSchemes.contains s
  | none => false

/-- Modelled from the spec: `SafetyGate.check_url(url, allow_unsafe)`.  The
gate is evaluated in all cases but must not raise when the caller opted in
with `allow_unsafe=true`.  The implementation is missing from `src/`. -/
def check_url (url : String) (allowUnsafe : Bool) : Except GitError Unit :=
  if urlIsUnsafe url && !allowUnsafe then
    Except.error (GitError.unsafeProtocol url)
  else
    Except.ok ()

/-- The caller-supplied option names that are on the deny-list, in order. -/
def optionsUnsafeNames (opts : List (String × String)) : List String :=
  (opts.map Prod.fst).filter (fun n => unsafeOptionNames.contains n)

/-- Modelled from the spec: `SafetyGate.check_options(options, allow_unsafe)`.
An option is unsafe when its name is deny-listed; `allow_unsafe=true`
bypasses the check without raising.  The implementation is missing from
`src/`. -/
def check_options (opts : List (String × String)) (allowUnsafe : Bool) :
    Except GitError Unit :=
  match optionsUnsafeNames opts with
  | [] => Except.ok ()
  | n :: _ => if allowUnsafe then Except.ok () else Except.error (GitError.unsafeOption n)

/-! ### RemoteSync orchestration (safety-checked phase) -/

/-- The operations of the remote API that accept a transport URL. -/
inductive UrlOperation
  | fetch
  | push
  | pull
  | setUrl
  | addUrl
  | createRemote
deriving DecidableEq

/-- Modelled from the spec: every URL-accepting operation of the orchestrator
(fetch, push, pull, set_url, add_url, Remote.create) runs
`SafetyGate.check_url` on the URL during the INIT → SAFETY_CHECKED transition,
before any subprocess exists.  The orchestrator implementation is missing from
`src/`. -/
def urlOperationGate (_op : UrlOperation) (url : String) (allowUnsafe : Bool) :
    Except GitError Unit :=
  check_url url allowUnsafe

/-- The operations of the remote API that spawn a subprocess with
caller-supplied options. -/
inductive RemoteOperation
  | fetch
  | push
  | pull
deriving DecidableEq

/-- Observable side effects of one orchestrator call: subprocess creation. -/
inductive SpawnEvent
  | spawn (op : RemoteOperation) (opts : List (String × String))
deriving DecidableEq

/-- Modelled from the spec: the orchestrator state machine
INIT → SAFETY_CHECKED → SPAWNED.  On a SafetyGate failure it transitions
directly to FAILED without spawning, so the returned event trace is empty and
no side effect of any option value is observable.  The orchestrator
implementation is missing from `src/`. -/
def runRemoteOperation (op : RemoteOperation) (opts : List (String × String))
    (allowUnsafeOptions : Bool) : List SpawnEvent × Except GitError Unit :=
  match check_options opts allowUnsafeOptions with
  | Except.error e => ([], Except.error e)
  | Except.ok () => ([SpawnEvent.spawn op opts], Except.ok ())

/-! ### Push flags, records and raise_if_error -/

namespace PushFlags

def NEW_TAG : Nat := 1

def NEW_HEAD : Nat := 2

def NO_MATCH : Nat := 4

def REJECTED : Nat := 8

def REMOTE_REJECTED : Nat := 16

def REMOTE_FAILURE : Nat := 32

def DELETED : Nat := 64

def FORCED_UPDATE : Nat := 128

def FAST_FORWARD : Nat := 256

def UP_TO_DATE : Nat := 512

def ERROR : Nat := 1024

end PushFlags

/-- One outcome of pushing one local ref (the spec's PushRecord).  Reference
and commit handles are modelled by their textual paths / hex ids. -/
structure PushInfoRec where
  flags : Nat
  localRef : Option String
  remoteRef : String
  oldCommit : Option String
  summary : String
deriving DecidableEq

/-- Modelled from the spec: `raise_if_error()` on the collected push-result
list iterates all records and, if any has ERROR set, fails with a command
error summarizing the rejection reasons concatenated; else it is a no-op.
The implementation is missing from `src/`. -/
def raise_if_error (l : List PushInfoRec) : Except GitError Unit :=
  if l.any (fun r => r.flags &&& PushFlags.ERROR != 0) then
    Except.error (GitError.commandError (String.intercalate "; "
      ((l.filter (fun r => r.flags &&& PushFlags.ERROR != 0)).map
        (fun r => r.summary))))
  else
    Except.ok ()

/-- Disambiguation of the trailing parenthetical reason of an error push line
into REJECTED / REMOTE_REJECTED / REMOTE_FAILURE / NO_MATCH, per the spec's
flag-character table. -/
def pushReasonFlags (summary : String) : Nat :=
  (if strContainsSub summary "[rejected]" then PushFlags.REJECTED else 0) |||
  (if strContainsSub summary "[remote rejected]" then PushFlags.REMOTE_REJECTED else 0) |||
  (if strContainsSub summary "[remote failure]" then PushFlags.REMOTE_FAILURE else 0) |||
  (if strContainsSub summary "[no match]" then PushFlags.NO_MATCH else 0)

/-- Flag bits of one push summary line, determined by its single leading flag
character per the spec's table: `*` new head/tag (by target path), `-`
deleted, `+` forced update, space fast-forward, `=` up to date, `!` error
further disambiguated by the summary text. -/
def pushFlagOf (c : Char) (toPath : String) (summary : String) : Option Nat :=
  if c = '*' then
    some (if isPrefixList "refs/tags".toList toPath.toList then PushFlags.NEW_TAG
          else PushFlags.NEW_HEAD)
  else if c = '-' then some PushFlags.DELETED
  else if c = '+' then some PushFlags.FORCED_UPDATE
  else if c = ' ' then some PushFlags.FAST_FORWARD
  else if c = '=' then some PushFlags.UP_TO_DATE
  else if c = '!' then some (PushFlags.ERROR ||| pushReasonFlags summary)
  else none

/-- Old-sha extraction from a push summary: the part before `..` or `...` of
the first whitespace token, when the line carries an explicit old-sha. -/
def pushOldSha (summary : String) : Option String :=
  let tok := (summary.toList.takeWhile (fun ch => !(isSpaceChar ch)))
  match splitOnceList ['.', '.', '.'] tok with
  | some (a, _) => if a.isEmpty then none else some (String.mk a)
  | none =>
    match splitOnceList ['.', '.'] tok with
    | some (a, _) => if a.isEmpty then none else some (String.mk a)
    | none => none

/-- Modelled from the spec: the push ResultLine parser.  One summary line per
pushed ref: a single leading flag character, a `<from>:<to>` descriptor and a
free-text summary, tab-separated.  The parser implementation
(`PushInfo._from_line`) is missing from `src/`; only its tests are present. -/
def PushInfo.from_line (line : String) : Except GitError PushInfoRec :=
  match (splitListOnChar '\t' line.toList).map String.mk with
  | [flagField, fromTo, summary] =>
    match flagField.toList with
    | [c] =>
      match (splitListOnChar ':' fromTo.toList).map String.mk with
      | [fromRef, toRef] =>
        match pushFlagOf c toRef summary with
        | some fl =>
          Except.ok
            { flags := fl
            , localRef := if c = '-' then none else some fromRef
            , remoteRef := toRef
            , oldCommit := pushOldSha summary
            , summary := summary }
        | none => Except.error (GitError.valueError ("Unknown push flag character in line: " ++ line))
      | _ => Except.error (GitError.valueError ("Malformed from:to field in push line: " ++ line))
    | _ => Except.error (GitError.valueError ("Malformed flag field in push line: " ++ line))
  | _ => Except.error (GitError.valueError ("Malformed push line: " ++ line))

/-! ### Fetch flags, reference-path resolution and the fetch line parser -/

namespace FetchFlags

def NEW_TAG : Nat := 1

def NEW_HEAD : Nat := 2

def HEAD_UPTODATE : Nat := 4

def TAG_UPDATE : Nat := 8

def REJECTED : Nat := 16

def FORCED_UPDATE : Nat := 32

def FAST_FORWARD : Nat := 64

def ERROR : Nat := 128

end FetchFlags

/-- The closed tagged-variant reference type the spec prescribes for the
classifier's output: plain reference, tag reference, or remote-tracking
reference bound to a remote. -/
inductive RefKind
  | reference
  | tagRef
  | remoteRef (remoteName : String)
deriving DecidableEq

/-- Join path segments back into a slash-separated reference path. -/
def joinSegs : List String → String
  | [] => ""
  | [s] => s
  | s :: rest => s ++ "/" ++ joinSegs rest

/-- Modelled from the spec: the priority-ordered reference-path resolution
rules of the OutcomeClassifier, on the slash-split segments of the reported
name.  (1) a name already beginning with `refs/` is used verbatim as a generic
Reference, unless it lies under `refs/tags/`, which yields a TagReference;
(2) a name qualified as `<remote>/tags/<name>` becomes
`refs/remotes/<remote>/tags/<name>`, a TagReference; (3) a name qualified as
`<remote>/<name>` with no further slash becomes `refs/remotes/<remote>/<name>`,
a RemoteReference bound to that remote; (4) anything else is a plain Reference
under `refs/<name>`.  The classifier implementation is missing from `src/`. -/
def resolveRefSegs (segs : List String) : RefKind × List String :=
  match segs with
  | [] => (RefKind.reference, ["refs"])
  | s0 :: rest =>
    if s0 = "refs" then
      (if rest.headD "" = "tags" then RefKind.tagRef else RefKind.reference, segs)
    else
      match rest with
      | s1 :: _ :: _ =>
        if s1 = "tags" then (RefKind.tagRef, ["refs", "remotes"] ++ segs)
        else (RefKind.reference, "refs" :: segs)
      | [s1] => (RefKind.remoteRef s0, ["refs", "remotes", s0, s1])
      | [] => (RefKind.reference, ["refs", s0])

/-- Reference-path resolution on a reported name, as (kind, full path). -/
def resolve_ref (name : String) : RefKind × String :=
  let parts := (splitListOnChar '/' name.toList).map String.mk
  let (k, segs) := resolveRefSegs parts
  (k, joinSegs segs)

/-- The bracketed-status / dotted-range classification outcomes of the fetch
classification table. -/
inductive FetchStatus
  | newBranch
  | newTag
  | tagUpdate
  | rejectedStatus
  | upToDate
  | fastForward (oldSha newSha : String)
  | forcedUpdate (oldSha newSha : String)
deriving DecidableEq

/-- Split a dotted-range token `<old>...<new>` (triple dot). -/
def splitRangeTriple (tok : String) : Option (String × String) :=
  match splitOnceList ['.', '.', '.'] tok.toList with
  | some (a, b) =>
    if a.isEmpty || b.isEmpty then none else some (String.mk a, String.mk b)
  | none => none

/-- Split a dotted-range token `<old>..<new>` (double dot). -/
def splitRangeDouble (tok : String) : Option (String × String) :=
  match splitOnceList ['.', '.'] tok.toList with
  | some (a, b) =>
    if a.isEmpty || b.isEmpty then none else some (String.mk a, String.mk b)
  | none => none

/-- Modelled from the spec: the fetch classification table mapping the status
token to outcome flags — `[new branch]`, `[new tag]`, `[tag update]`,
`[rejected]` (REJECTED plus ERROR), `[up to date]`, the fast-forward form
`<old>..<new>`, the forced form `<old>...<new>`; anything unrecognized cannot
be classified.  The classifier implementation is missing from `src/`. -/
def classifyStatus (tok : String) : Option FetchStatus :=
  if tok = "[new branch]" then some FetchStatus.newBranch
  else if tok = "[new tag]" then some FetchStatus.newTag
  else if tok = "[tag update]" then some FetchStatus.tagUpdate
  else if tok = "[rejected]" then some FetchStatus.rejectedStatus
  else if tok = "[up to date]" then some FetchStatus.upToDate
  else
    match splitRangeTriple tok with
    | some (a, b) => some (FetchStatus.forcedUpdate a b)
    | none =>
      match splitRangeDouble tok with
      | some (a, b) => some (FetchStatus.fastForward a b)
      | none => none

/-- Outcome flag bits of one classified fetch status. -/
def statusFlags : FetchStatus → Nat
  | FetchStatus.newBranch => FetchFlags.NEW_HEAD
  | FetchStatus.newTag => FetchFlags.NEW_TAG
  | FetchStatus.tagUpdate => FetchFlags.TAG_UPDATE
  | FetchStatus.rejectedStatus => FetchFlags.REJECTED ||| FetchFlags.ERROR
  | FetchStatus.upToDate => FetchFlags.HEAD_UPTODATE
  | FetchStatus.fastForward _ _ => FetchFlags.FAST_FORWARD
  | FetchStatus.forcedUpdate _ _ => FetchFlags.FORCED_UPDATE

/-- The old-sha carried by a classified status, present exactly for the
fast-forward and forced-update range forms. -/
def statusOldSha : FetchStatus → Option String
  | FetchStatus.fastForward a _ => some a
  | FetchStatus.forcedUpdate a _ => some a
  | _ => none

/-- The recognized leading marker characters of a fetch stderr summary line
(`<marker> [<bracketed-status>] <local> -> <tracking>` per the spec's line
grammar).  A line with any other leading character cannot be classified. -/
def fetchMarkers : List Char := [' ', '!', '+', '-', '*', '=', 't']

/-- Extract the status token from the part of the line after the marker:
either a bracketed token up to the closing `]`, or the first
whitespace-delimited token (the dotted-range forms). -/
def parseStatusChars (s : List Char) : Option (String × List Char) :=
  match s with
  | [] => none
  | '[' :: t =>
    match splitOnceList [']'] ('[' :: t) with
    | some (a, b) => some (String.mk (a ++ [']']), b)
    | none => none
  | c :: t =>
    some (String.mk ((c :: t).takeWhile (fun ch => !(isSpaceChar ch))),
          (c :: t).dropWhile (fun ch => !(isSpaceChar ch)))

/-- Modelled from the spec: the front half of `FetchInfo._from_line` on the
human-readable stderr summary line
`<marker> [<bracketed-status>]      <local-name>     -> <remote>/<branch>`:
recognize the marker, extract and classify the status token, and split the
`<from> -> <to>` descriptor; any line that cannot be matched fails with a
ValueError-kind parse error.  The parser implementation is missing from
`src/`; only its tests are present. -/
def parseFetchStderr (line : String) :
    Except GitError (FetchStatus × String × String × String) :=
  match line.toList with
  | [] => Except.error (GitError.valueError ("Failed to parse line: " ++ line))
  | c :: rest =>
    if fetchMarkers.contains c then
      match parseStatusChars (trimLeftList rest) with
      | none => Except.error (GitError.valueError ("Failed to parse line: " ++ line))
      | some (tok, remainder) =>
        match classifyStatus tok with
        | none =>
          Except.error (GitError.valueError ("Cannot classify fetch status token: " ++ tok))
        | some st =>
          match splitOnceList ['-', '>'] remainder with
          | none => Except.error (GitError.valueError ("Failed to parse line: " ++ line))
          | some (fromPart, toPart) =>
            let fromName := String.mk (trimList fromPart)
            let toChars := trimLeftList toPart
            let toName := String.mk (toChars.takeWhile (fun ch => !(isSpaceChar ch)))
            let note := String.mk (trimList (toChars.dropWhile (fun ch => !(isSpaceChar ch))))
            if fromName = "" || toName = "" then
              Except.error (GitError.valueError ("Failed to parse line: " ++ line))
            else
              Except.ok (st, fromName, toName, note)
    else
      Except.error (GitError.valueError ("Control character unknown in line: " ++ line))

/-- Modelled from the spec: validation of the correlated FETCH_HEAD line of
three tab-separated fields (status token, description token, remote-ref
descriptor); the descriptor must consist of a ref-type word, a space and the
remainder, else the line parser fails with a ValueError-kind error.  The
parser implementation is missing from `src/`; only its tests are present. -/
def parseFetchHead (fetchLine : String) : Except GitError Unit :=
  match splitListOnChar '\t' fetchLine.toList with
  | [_, _, noteField] =>
    if containsList [' '] noteField then Except.ok ()
    else Except.error (GitError.valueError ("Failed to parse FETCH_HEAD line: " ++ fetchLine))
  | _ => Except.error (GitError.valueError ("Failed to parse FETCH_HEAD line: " ++ fetchLine))

/-- One outcome of fetching one remote ref (the spec's FetchRecord).
Reference handles are modelled by (kind, path); commit handles by hex ids. -/
structure FetchInfoRec where
  refKind : RefKind
  refPath : String
  flags : Nat
  note : String
  oldCommit : Option String
  remoteRefPath : String
deriving DecidableEq

/-- The repository collaborator's commit lookup: a repository is the list of
hex ids it can resolve, and `resolve_commit` fails on unknown ids. -/
def resolve_commit (repo : List String) (sha : String) : Option String :=
  if repo.contains sha then some sha else none

/-- Modelled from the spec: assembling one FetchRecord from a classified
status — flags from the classification table, `old_commit = lookup(oldsha)`
for the dotted-range forms (a failing lookup fails the parse), `null`
otherwise, and the tracking name resolved by the reference-path resolution
rules.  The implementation is missing from `src/`. -/
def mkFetchRecord (repo : List String) (st : FetchStatus)
    (fromName toName note : String) : Except GitError FetchInfoRec :=
  let (k, p) := resolve_ref toName
  match statusOldSha st with
  | none =>
    Except.ok
      { refKind := k, refPath := p, flags := statusFlags st, note := note
      , oldCommit := none, remoteRefPath := fromName }
  | some sha =>
    match resolve_commit repo sha with
    | none => Except.error (GitError.lookupError sha)
    | some c =>
      Except.ok
        { refKind := k, refPath := p, flags := statusFlags st, note := note
        , oldCommit := some c, remoteRefPath := fromName }

/-- Modelled from the spec: `FetchInfo._from_line(repo, line, fetch_line)` —
parse and classify the stderr summary line, validate the correlated
FETCH_HEAD line, and build the record.  The implementation is missing from
`src/`; only its tests are present. -/
def FetchInfo.from_line (repo : List String) (line : String) (fetchLine : String) :
    Except GitError FetchInfoRec :=
  match parseFetchStderr line with
  | Except.error e => Except.error e
  | Except.ok (st, fromName, toName, note) =>
    match parseFetchHead fetchLine with
    | Except.error e => Except.error e
    | Except.ok () => mkFetchRecord repo st fromName toName note

/-- Decidable test that a fetch stderr line can be matched by the
classification table: recognized leading marker, extractable status token,
and a status token the table classifies. -/
def lineClassifies (line : String) : Bool :=
  match line.toList with
  | [] => false
  | c :: rest =>
    fetchMarkers.contains c &&
      (match parseStatusChars (trimLeftList rest) with
       | none => false
       | some (tok, _) => (classifyStatus tok).isSome)

/-! ### ProgressDecoder -/

/-- The progress phases the decoder recognizes, plus the catch-all unknown
bucket that is still delivered to the callback. -/
inductive Phase
  | counting
  | compressing
  | writing
  | unknownPhase
deriving DecidableEq

namespace ProgressBits

def BEGIN : Nat := 1

def END : Nat := 2

def STAGE_MASK : Nat := 3

end ProgressBits

/-- Map a phase name to its phase, with the unknown bucket as catch-all. -/
def phaseOf (name : String) : Phase :=
  if name = "Counting objects" then Phase.counting
  else if name = "Compressing objects" then Phase.compressing
  else if name = "Writing objects" then Phase.writing
  else Phase.unknownPhase

/-- The per-operation transient decoder state of the spec's data model:
which phases have been seen and the bitmask of stage flags observed per
phase. -/
structure ProgressState where
  seenPhases : List Phase
  stagesPerPhase : List (Phase × Nat)
deriving DecidableEq

/-- The decoder state at the start of one operation. -/
def initProgress : ProgressState := { seenPhases := [], stagesPerPhase := [] }

/-- Stage bits observed so far for one phase (0 when not yet observed). -/
def lookupStage (st : ProgressState) (p : Phase) : Nat :=
  match st.stagesPerPhase.lookup p with
  | some n => n
  | none => 0

/-- Replace (or insert) the stage entry for one phase. -/
def setStage (l : List (Phase × Nat)) (p : Phase) (v : Nat) : List (Phase × Nat) :=
  match l with
  | [] => [(p, v)]
  | (q, w) :: t => if q = p then (p, v) :: t else (q, w) :: setStage t p v

/-- What one decoded line produces: an update delivered to the registered
progress callback, or a dropped-line notification. -/
inductive ProgressEvent
  | update (phase : Phase) (stageBits : Nat) (cur : Option Nat) (total : Option Nat)
      (message : String)
  | droppedLine (line : String)
deriving DecidableEq

/-- Strip the optional `remote: ` prefix of a progress line. -/
def stripRemote (l : List Char) : List Char :=
  if isPrefixList ("remote: ".toList) l then l.drop 8 else l

/-- Numeric value of a digit character, if it is one. -/
def digitVal (c : Char) : Option Nat :=
  if 48 ≤ c.toNat && c.toNat ≤ 57 then some (c.toNat - 48) else none

/-- Accumulator for decimal parsing. -/
def digitsToNatAux : List Char → Nat → Option Nat
  | [], acc => some acc
  | c :: t, acc =>
    match digitVal c with
    | some d => digitsToNatAux t (acc * 10 + d)
    | none => none

/-- Parse a nonempty all-digit character list as a decimal number. -/
def digitsToNat (l : List Char) : Option Nat :=
  if l.isEmpty then none else digitsToNatAux l 0

/-- Extract the optional numeric `(<current>/<total>)` group of a progress
line; absent on textual-only lines. -/
def parseCounts (rest : List Char) : Option Nat × Option Nat :=
  match splitOnceList ['('] rest with
  | none => (none, none)
  | some (_, afterParen) =>
    match splitOnceList [')'] afterParen with
    | none => (none, none)
    | some (inside, _) =>
      match splitOnceList ['/'] inside with
      | none => (digitsToNat inside, none)
      | some (a, b) => (digitsToNat a, digitsToNat b)

/-- Modelled from the spec: `RemoteProgress._parse_progress_line` — strip the
`remote: ` prefix, tokenize into phase name (before the first `:`), stage
marker (BEGIN when the phase has no previous occurrence in this operation,
END when the line contains `, done` or 100%), optional numeric
current/total, and message remainder; accumulate the stage bits of the phase
into the per-phase tracking by bitwise OR; deliver one update to the
callback (unknown phase names included); a line that cannot be tokenized
becomes a dropped-line notification, never an error.  The decoder
implementation is missing from `src/`; only its tests are present. -/
def parse_progress_line (st : ProgressState) (line : String) :
    ProgressState × List ProgressEvent :=
  let l := stripRemote line.toList
  match splitOnceList [':'] l with
  | none => (st, [ProgressEvent.droppedLine line])
  | some (nameChars, rest) =>
    let p := phaseOf (String.mk nameChars)
    let beginBit := if st.seenPhases.contains p then 0 else ProgressBits.BEGIN
    let endBit :=
      if containsList (", done".toList) rest || containsList ("100%".toList) rest then
        ProgressBits.END
      else 0
    let stage := beginBit ||| endBit
    let (cur, total) := parseCounts rest
    let message :=
      match splitOnceList [',', ' '] rest with
      | some (_, m) => String.mk (trimList m)
      | none => ""
    let st' : ProgressState :=
      { seenPhases := if st.seenPhases.contains p then st.seenPhases else p :: st.seenPhases
      , stagesPerPhase := setStage st.stagesPerPhase p (lookupStage st p ||| stage) }
    (st', [ProgressEvent.update p stage cur total message])

/-- Feed a sequence of progress lines through the decoder, accumulating the
state and the emitted events in order. -/
def feed_lines (st : ProgressState) : List String → ProgressState × List ProgressEvent
  | [] => (st, [])
  | l :: t =>
    let (st1, evs1) := parse_progress_line st l
    let (st2, evs2) := feed_lines st1 t
    (st2, evs1 ++ evs2)

/-! ### Timeout contract -/

/-- The remote operations that accept `kill_after_timeout` (push cannot be
made to time out in the tests, so the spec's timeout contract is exercised
with fetch and pull). -/
inductive SyncOperation
  | fetchOp
  | pullOp
deriving DecidableEq

/-- The command-error message the timeout path produces, stating
`kill_after_timeout=<N> s` as the spec requires. -/
def timeoutMessage (t : Nat) : String :=
  "Timed out: kill_after_timeout=" ++ toString t ++ " s"

/-- Modelled from the spec: the orchestrator's timeout handling — if a
`kill_after_timeout` duration elapses without process completion, the
subprocess is terminated and the call fails with a command error stating
`kill_after_timeout=<N> s`.  Durations are abstracted as natural numbers of
seconds; `completionTime` is the time the subprocess needs, and any real
subprocess needs positive time.  The orchestrator implementation is missing
from `src/`; only its tests are present. -/
def run_with_timeout (_op : SyncOperation) (killAfterTimeout : Option Nat)
    (completionTime : Nat) : Except GitError Unit :=
  match killAfterTimeout with
  | none => Except.ok ()
  | some t =>
    if completionTime ≤ t then Except.ok ()
    else Except.error (GitError.commandError (timeoutMessage t))

end GitModel

namespace GitModel

/-! ### Helper lemmas shared by the claim theorems -/

/-- Membership in the unsafe-name filter implies the name is deny-listed. -/
theorem mem_optionsUnsafeNames {opts : List (String × String)} {n : String}
    (h : n ∈ optionsUnsafeNames opts) : unsafeOptionNames.contains n = true := by
  unfold optionsUnsafeNames at h
  exact (List.mem_filter.mp h).2

/-- A parse failure of the stderr summary line is a failure of the whole
fetch line parser. -/
theorem from_line_error_of_stderr (repo : List String) (line fetchLine : String)
    (e : GitError) (h : parseFetchStderr line = Except.error e) :
    FetchInfo.from_line repo line fetchLine = Except.error e := by
  unfold FetchInfo.from_line
  rw [h]

/-! ### Claim theorems -/

/-- C1: for every URL whose transport scheme is on the deny-list, every
URL-accepting operation (fetch, push, pull, set_url, add_url, Remote.create)
fails with UnsafeProtocolError when allow_unsafe_protocols is not set, and
does not fail with it when the caller passes allow_unsafe_protocols=true. -/
theorem C1_unsafe_url_gate (op : UrlOperation) (url s : String)
    (hs : urlScheme url = some s)
    (hmem : unsafeProtocolSchemes.contains s = true) :
    urlOperationGate op url false = Except.error (GitError.unsafeProtocol url) ∧
    urlOperationGate op url true = Except.ok () := by
  have hu : urlIsUnsafe url = true := by
    unfold urlIsUnsafe
    rw [hs]
    exact hmem
  constructor
  · simp [urlOperationGate, check_url, hu]
  · simp [urlOperationGate, check_url]

/-- Witness for C1 at the test's URL `ext::sh -c touch /tmp/x`. -/
theorem C1_unsafe_url_gate_witness :
    urlScheme "ext::sh -c touch /tmp/x" = some "ext" ∧
    unsafeProtocolSchemes.contains "ext" = true ∧
    urlOperationGate UrlOperation.fetch "ext::sh -c touch /tmp/x" false
      = Except.error (GitError.unsafeProtocol "ext::sh -c touch /tmp/x") ∧
    urlOperationGate UrlOperation.fetch "ext::sh -c touch /tmp/x" true = Except.ok () := by
  have h := C1_unsafe_url_gate UrlOperation.fetch "ext::sh -c touch /tmp/x" "ext" rfl rfl
  exact ⟨rfl, rfl, h.1, h.2⟩

/-- C2: for every fetch, push, or pull call supplied an option whose name is
deny-listed (upload-pack, receive-pack, exec) without allow_unsafe_options,
the call fails with UnsafeOptionError and the spawn-event trace is empty,
so no subprocess is created and no side effect of the option's value is
observable. -/
theorem C2_unsafe_options_atomic (op : RemoteOperation)
    (opts : List (String × String)) (name value : String)
    (hmem : (name, value) ∈ opts)
    (hdeny : unsafeOptionNames.contains name = true) :
    (runRemoteOperation op opts false).1 = [] ∧
    ∃ n, (runRemoteOperation op opts false).2 = Except.error (GitError.unsafeOption n) ∧
      unsafeOptionNames.contains n = true := by
  cases hf : optionsUnsafeNames opts with
  | nil =>
    exfalso
    have hin : name ∈ optionsUnsafeNames opts := by
      unfold optionsUnsafeNames
      exact List.mem_filter.mpr ⟨List.mem_map_of_mem _ hmem, hdeny⟩
    rw [hf] at hin
    exact List.not_mem_nil _ hin
  | cons n t =>
    have hn : n ∈ optionsUnsafeNames opts := by
      rw [hf]
      exact List.mem_cons_self _ _
    have hcn : unsafeOptionNames.contains n = true := mem_optionsUnsafeNames hn
    refine ⟨?_, n, ?_, hcn⟩ <;> simp [runRemoteOperation, check_options, hf]

/-- Witness for C2 at the test's unsafe fetch option upload-pack. -/
theorem C2_unsafe_options_atomic_witness :
    (runRemoteOperation RemoteOperation.fetch [("upload-pack", "touch /tmp/pwn")] false).1 = [] ∧
    ∃ n, (runRemoteOperation RemoteOperation.fetch
        [("upload-pack", "touch /tmp/pwn")] false).2
      = Except.error (GitError.unsafeOption n) ∧ unsafeOptionNames.contains n = true :=
  C2_unsafe_options_atomic RemoteOperation.fetch _ "upload-pack" "touch /tmp/pwn"
    (List.mem_cons_self _ _) rfl

/-- C3: raise_if_error on a push-result collection is a no-op exactly when no
record has the ERROR flag set, and fails with a CommandError when at least
one record has it set. -/
theorem C3_raise_if_error_iff (l : List PushInfoRec) :
    (raise_if_error l = Except.ok () ↔ ∀ r ∈ l, r.flags &&& PushFlags.ERROR = 0) ∧
    ((∃ r ∈ l, r.flags &&& PushFlags.ERROR ≠ 0) →
      ∃ m, raise_if_error l = Except.error (GitError.commandError m)) := by
  cases ha : l.any (fun r => r.flags &&& PushFlags.ERROR != 0) with
  | false =>
    have hall : ∀ r ∈ l, r.flags &&& PushFlags.ERROR = 0 := by
      intro r hr
      have hx := List.any_eq_false.mp ha r hr
      simpa using hx
    refine ⟨⟨fun _ => hall, fun _ => ?_⟩, fun hex => ?_⟩
    · simp [raise_if_error, ha]
    · obtain ⟨r, hr, hne⟩ := hex
      exact absurd (hall r hr) hne
  | true =>
    obtain ⟨r, hr, hp⟩ := List.any_eq_true.mp ha
    have hne : r.flags &&& PushFlags.ERROR ≠ 0 := by simpa using hp
    refine ⟨⟨fun h => ?_, fun hall => absurd (hall r hr) hne⟩,
      fun _ => ⟨String.intercalate "; "
        ((l.filter (fun r => r.flags &&& PushFlags.ERROR != 0)).map
          (fun r => r.summary)), ?_⟩⟩
    · rw [raise_if_error] at h
      simp [ha] at h
    · simp [raise_if_error, ha]

/-- Witness for C3: the empty collection is a no-op, and a collection holding
one ERROR record is not. -/
theorem C3_raise_if_error_iff_witness :
    raise_if_error [] = Except.ok () ∧
    raise_if_error
      [{ flags := 1032, localRef := none, remoteRef := "refs/heads/b"
       , oldCommit := none, summary := "[rejected] (non-fast-forward)" }]
      ≠ Except.ok () := by
  constructor
  · exact (C3_raise_if_error_iff []).1.mpr (by intro r hr; cases hr)
  · intro h
    have hall := (C3_raise_if_error_iff _).1.mp h
    have h2 := hall _ (List.mem_cons_self _ _)
    exact absurd h2 (by decide)

end GitModel

namespace GitModel

/-- Any flag word the push flag-character table produces that carries one of
REJECTED, REMOTE_REJECTED or REMOTE_FAILURE also carries ERROR: those bits
are only ever added in the `!` branch, whose word always includes ERROR. -/
theorem pushFlagOf_error_of_reason (c : Char) (p s : String) (fl : Nat)
    (h : pushFlagOf c p s = some fl)
    (hr : fl &&& (PushFlags.REJECTED ||| PushFlags.REMOTE_REJECTED |||
      PushFlags.REMOTE_FAILURE) ≠ 0) :
    fl &&& PushFlags.ERROR ≠ 0 := by
  unfold pushFlagOf at h
  split_ifs at h with h1 h2 h3 h4 h5 h6 h7
  all_goals
    injection h with h'
  all_goals
    subst h'
  all_goals
    first
      | exact absurd hr (by decide)
      | (unfold pushReasonFlags
         split_ifs <;> decide)

/-- C4 counterexample: the error push line whose parenthetical reason is
`[no match]` yields a record with ERROR set while none of REJECTED,
REMOTE_REJECTED, REMOTE_FAILURE is set, refuting the claimed iff. -/
theorem C4_error_without_rejection_counterexample :
    ∃ rec, PushInfo.from_line "!\trefs/heads/a:refs/heads/b\t[no match]"
        = Except.ok rec ∧
      rec.flags &&& PushFlags.ERROR ≠ 0 ∧
      rec.flags &&& (PushFlags.REJECTED ||| PushFlags.REMOTE_REJECTED |||
        PushFlags.REMOTE_FAILURE) = 0 :=
  ⟨_, rfl, by decide, by decide⟩

/-- C4 (amended): for every PushRecord produced by parsing a push summary
line, whenever at least one of REJECTED, REMOTE_REJECTED or REMOTE_FAILURE is
set, ERROR is set as well (the converse direction fails on error lines whose
reason is `[no match]`, which set ERROR with only NO_MATCH). -/
theorem C4_rejection_implies_error (line : String) (rec : PushInfoRec)
    (h : PushInfo.from_line line = Except.ok rec)
    (hr : rec.flags &&& (PushFlags.REJECTED ||| PushFlags.REMOTE_REJECTED |||
      PushFlags.REMOTE_FAILURE) ≠ 0) :
    rec.flags &&& PushFlags.ERROR ≠ 0 := by
  unfold PushInfo.from_line at h
  split at h
  case h_2 => cases h
  case h_1 flagField fromTo summary heq =>
    split at h
    case h_2 => cases h
    case h_1 c hc =>
      split at h
      case h_2 => cases h
      case h_1 fromRef toRef hft =>
        split at h
        case h_2 => cases h
        case h_1 fl hfl =>
          have hrec : rec.flags = fl := by
            injection h with h'
            rw [← h']
          rw [hrec] at hr ⊢
          exact pushFlagOf_error_of_reason c toRef summary fl hfl hr

/-- Witness for C4 at a `[rejected]` push line. -/
theorem C4_rejection_implies_error_witness :
    PushInfo.from_line "!\trefs/heads/a:refs/heads/b\t[rejected] (non-fast-forward)"
      = Except.ok
        { flags := 1032, localRef := some "refs/heads/a", remoteRef := "refs/heads/b"
        , oldCommit := none, summary := "[rejected] (non-fast-forward)" } ∧
    (1032 : Nat) &&& PushFlags.ERROR ≠ 0 := by
  constructor
  · rfl
  · exact C4_rejection_implies_error
      "!\trefs/heads/a:refs/heads/b\t[rejected] (non-fast-forward)"
      { flags := 1032, localRef := some "refs/heads/a", remoteRef := "refs/heads/b"
      , oldCommit := none, summary := "[rejected] (non-fast-forward)" }
      (by rfl) (by decide)

/-- C5 counterexample: a reported name already beginning with `refs/` is kept
verbatim and typed as a generic Reference by the resolution rules, so
`refs/pull/1/head` does not resolve to the claimed override path
`refs/heads/pull/1/head` (nor to a Head type, which the resolution rules
never produce). -/
theorem C5_refs_override_counterexample :
    resolve_ref "refs/pull/1/head" = (RefKind.reference, "refs/pull/1/head") ∧
    (resolve_ref "refs/pull/1/head").2 ≠ "refs/heads/pull/1/head" := by
  exact ⟨rfl, by decide⟩

/-- C5 (amended): resolution is deterministic and follows the stated
priority: a reported name `<remote>/tags/<name>` resolves to
`refs/remotes/<remote>/tags/<name>` typed TagReference; a reported name
already beginning with `refs/` resolves verbatim (path unchanged) and is
typed generic Reference, unless it lies under `refs/tags/`, which yields a
TagReference. -/
theorem C5_resolution_amended :
    (∀ r n : String, r ≠ "refs" →
      resolveRefSegs [r, "tags", n]
        = (RefKind.tagRef, ["refs", "remotes", r, "tags", n])) ∧
    resolve_ref "remotename/tags/tagname"
      = (RefKind.tagRef, "refs/remotes/remotename/tags/tagname") ∧
    resolve_ref "refs/pull/1/head" = (RefKind.reference, "refs/pull/1/head") ∧
    resolve_ref "refs/tags/v1" = (RefKind.tagRef, "refs/tags/v1") := by
  refine ⟨?_, rfl, rfl, rfl⟩
  intro r n hr
  simp [resolveRefSegs, hr]

/-- Witness for C5 at the test's reported name `remotename/tags/tagname`. -/
theorem C5_resolution_amended_witness :
    resolveRefSegs ["remotename", "tags", "tagname"]
      = (RefKind.tagRef, ["refs", "remotes", "remotename", "tags", "tagname"]) :=
  C5_resolution_amended.1 "remotename" "tagname" (by decide)

end GitModel

namespace GitModel

/-- A fetch stderr line the classification table cannot match makes the
stderr front-end fail with a ValueError-kind error. -/
theorem parseFetchStderr_error_of_unclassified (line : String)
    (h : lineClassifies line = false) :
    ∃ m, parseFetchStderr line = Except.error (GitError.valueError m) := by
  unfold lineClassifies at h
  unfold parseFetchStderr
  cases hl : line.toList with
  | nil =>
    simp only [hl]
    exact ⟨_, rfl⟩
  | cons c rest =>
    simp only [hl] at h
    simp only [hl]
    cases hc : fetchMarkers.contains c with
    | false =>
      simp [hc]
    | true =>
      simp only [hc, Bool.true_and] at h
      cases hp : parseStatusChars (trimLeftList rest) with
      | none =>
        simp [hc, hp]
      | some pr =>
        obtain ⟨tok, rem⟩ := pr
        simp only [hp] at h
        cases hcs : classifyStatus tok with
        | none =>
          simp [hc, hp, hcs]
        | some st =>
          rw [hcs] at h
          simp at h

/-- C6: every fetch summary line whose status cannot be matched by the
classification table makes FetchInfo._from_line fail with a ValueError
instead of producing a record; in particular the line `nonsense`, and the
new-branch line whose correlated FETCH_HEAD line (tracking-info descriptor
`/Users/ben/test/foo`) cannot be parsed, both fail with ValueError. -/
theorem C6_unmatched_line_value_error (repo : List String) (line fetchLine : String)
    (h : lineClassifies line = false) :
    (∃ m, FetchInfo.from_line repo line fetchLine
      = Except.error (GitError.valueError m)) ∧
    (∃ m, FetchInfo.from_line [] "nonsense" ""
      = Except.error (GitError.valueError m)) ∧
    (∃ m, FetchInfo.from_line []
        "* [new branch]      nomatter     -> refs/something/branch"
        "269c498e56feb93e408ed4558c8138d750de8893\t\t/Users/ben/test/foo\n"
      = Except.error (GitError.valueError m)) := by
  obtain ⟨m, hm⟩ := parseFetchStderr_error_of_unclassified line h
  exact ⟨⟨m, from_line_error_of_stderr repo line fetchLine _ hm⟩, ⟨_, rfl⟩, ⟨_, rfl⟩⟩

/-- Witness for C6 at a line whose bracketed status token is not in the
classification table. -/
theorem C6_unmatched_line_value_error_witness :
    lineClassifies "* [weird status]      a    -> b" = false ∧
    ∃ m, FetchInfo.from_line [] "* [weird status]      a    -> b" ""
      = Except.error (GitError.valueError m) :=
  ⟨rfl, (C6_unmatched_line_value_error [] "* [weird status]      a    -> b" "" rfl).1⟩

/-- C7: for every FetchRecord the parser produces, old_commit is present
exactly when the flags include FORCED_UPDATE or FAST_FORWARD; and every line
matching the fast-forward range pattern produces a record with FAST_FORWARD
set, FORCED_UPDATE unset, and a resolvable old_commit. -/
theorem C7_old_commit_iff (repo : List String) (line fetchLine : String)
    (rec : FetchInfoRec)
    (h : FetchInfo.from_line repo line fetchLine = Except.ok rec) :
    ((rec.flags &&& (FetchFlags.FORCED_UPDATE ||| FetchFlags.FAST_FORWARD) ≠ 0) ↔
      rec.oldCommit.isSome = true) ∧
    (∀ a b fromName toName note,
      parseFetchStderr line
        = Except.ok (FetchStatus.fastForward a b, fromName, toName, note) →
      rec.flags &&& FetchFlags.FAST_FORWARD ≠ 0 ∧
      rec.flags &&& FetchFlags.FORCED_UPDATE = 0 ∧
      rec.oldCommit = some a ∧ resolve_commit repo a = some a) := by
  unfold FetchInfo.from_line at h
  cases hps : parseFetchStderr line with
  | error e => rw [hps] at h; cases h
  | ok q =>
    obtain ⟨st, fromName0, toName0, note0⟩ := q
    rw [hps] at h
    cases hph : parseFetchHead fetchLine with
    | error e => rw [hph] at h; cases h
    | ok u =>
      cases u
      rw [hph] at h
      unfold mkFetchRecord at h
      cases st with
      | fastForward a0 b0 =>
        simp only [statusOldSha] at h
        cases hrc : resolve_commit repo a0 with
        | none =>
          simp only [hrc] at h
          exact Except.noConfusion h
        | some c0 =>
          simp only [hrc] at h
          have hca : c0 = a0 := by
            unfold resolve_commit at hrc
            split at hrc
            · injection hrc with h''
              exact h''.symm
            · cases hrc
          subst hca
          injection h with h'
          subst h'
          constructor
          · constructor
            · intro _
              rfl
            · intro _
              show FetchFlags.FAST_FORWARD &&&
                (FetchFlags.FORCED_UPDATE ||| FetchFlags.FAST_FORWARD) ≠ 0
              decide
          · intro a b fromName toName note heq
            injection heq with h1
            injection h1 with hst hrest
            injection hst with ha hb
            subst ha
            refine ⟨?_, ?_, rfl, hrc⟩
            · show FetchFlags.FAST_FORWARD &&& FetchFlags.FAST_FORWARD ≠ 0
              decide
            · show FetchFlags.FAST_FORWARD &&& FetchFlags.FORCED_UPDATE = 0
              decide
      | forcedUpdate a0 b0 =>
        simp only [statusOldSha] at h
        cases hrc : resolve_commit repo a0 with
        | none =>
          simp only [hrc] at h
          exact Except.noConfusion h
        | some c0 =>
          simp only [hrc] at h
          injection h with h'
          subst h'
          constructor
          · constructor
            · intro _
              rfl
            · intro _
              show FetchFlags.FORCED_UPDATE &&&
                (FetchFlags.FORCED_UPDATE ||| FetchFlags.FAST_FORWARD) ≠ 0
              decide
          · intro a b fromName toName note heq
            injection heq with h1
            injection h1 with hst hrest
            exact FetchStatus.noConfusion hst
      | newBranch =>
        simp only [statusOldSha] at h
        injection h with h'
        subst h'
        constructor
        · constructor
          · intro hx
            exact absurd (show statusFlags FetchStatus.newBranch &&&
              (FetchFlags.FORCED_UPDATE ||| FetchFlags.FAST_FORWARD) = 0 by decide) hx
          · intro hx
            exact Bool.noConfusion hx
        · intro a b fromName toName note heq
          injection heq with h1
          injection h1 with hst hrest
          exact FetchStatus.noConfusion hst
      | newTag =>
        simp only [statusOldSha] at h
        injection h with h'
        subst h'
        constructor
        · constructor
          · intro hx
            exact absurd (show statusFlags FetchStatus.newTag &&&
              (FetchFlags.FORCED_UPDATE ||| FetchFlags.FAST_FORWARD) = 0 by decide) hx
          · intro hx
            exact Bool.noConfusion hx
        · intro a b fromName toName note heq
          injection heq with h1
          injection h1 with hst hrest
          exact FetchStatus.noConfusion hst
      | tagUpdate =>
        simp only [statusOldSha] at h
        injection h with h'
        subst h'
        constructor
        · constructor
          · intro hx
            exact absurd (show statusFlags FetchStatus.tagUpdate &&&
              (FetchFlags.FORCED_UPDATE ||| FetchFlags.FAST_FORWARD) = 0 by decide) hx
          · intro hx
            exact Bool.noConfusion hx
        · intro a b fromName toName note heq
          injection heq with h1
          injection h1 with hst hrest
          exact FetchStatus.noConfusion hst
      | rejectedStatus =>
        simp only [statusOldSha] at h
        injection h with h'
        subst h'
        constructor
        · constructor
          · intro hx
            exact absurd (show statusFlags FetchStatus.rejectedStatus &&&
              (FetchFlags.FORCED_UPDATE ||| FetchFlags.FAST_FORWARD) = 0 by decide) hx
          · intro hx
            exact Bool.noConfusion hx
        · intro a b fromName toName note heq
          injection heq with h1
          injection h1 with hst hrest
          exact FetchStatus.noConfusion hst
      | upToDate =>
        simp only [statusOldSha] at h
        injection h with h'
        subst h'
        constructor
        · constructor
          · intro hx
            exact absurd (show statusFlags FetchStatus.upToDate &&&
              (FetchFlags.FORCED_UPDATE ||| FetchFlags.FAST_FORWARD) = 0 by decide) hx
          · intro hx
            exact Bool.noConfusion hx
        · intro a b fromName toName note heq
          injection heq with h1
          injection h1 with hst hrest
          exact FetchStatus.noConfusion hst

/-- Witness for C7 at a concrete fast-forward fetch line whose old commit
resolves in the repository. -/
theorem C7_old_commit_iff_witness :
    FetchInfo.from_line ["7b3ad8"] " 7b3ad8..f8d10a master     -> origin/master"
        "f8d10a\tnot-for-merge\tbranch of example"
      = Except.ok
        { refKind := RefKind.remoteRef "origin", refPath := "refs/remotes/origin/master"
        , flags := 64, note := "", oldCommit := some "7b3ad8", remoteRefPath := "master" } ∧
    (64 : Nat) &&& FetchFlags.FAST_FORWARD ≠ 0 ∧
    (64 : Nat) &&& FetchFlags.FORCED_UPDATE = 0 ∧
    (some "7b3ad8" : Option String) = some "7b3ad8" := by
  constructor
  · rfl
  · have h := C7_old_commit_iff ["7b3ad8"] " 7b3ad8..f8d10a master     -> origin/master"
      "f8d10a\tnot-for-merge\tbranch of example"
      { refKind := RefKind.remoteRef "origin", refPath := "refs/remotes/origin/master"
      , flags := 64, note := "", oldCommit := some "7b3ad8", remoteRefPath := "master" }
      (by rfl)
    have h2 := h.2 "7b3ad8" "f8d10a" "master" "origin/master" "" (by rfl)
    exact ⟨h2.1, h2.2.1, h2.2.2.1⟩

end GitModel

namespace GitModel

/-- C8: a fetch or pull configured with kill_after_timeout=0 always fails
(any real subprocess needs positive time) with a CommandError whose message
contains the substring kill_after_timeout=0 s. -/
theorem C8_timeout_zero_always_fails (op : SyncOperation) (d : Nat) (hd : 0 < d) :
    ∃ m, run_with_timeout op (some 0) d = Except.error (GitError.commandError m) ∧
      strContainsSub m "kill_after_timeout=0 s" = true := by
  refine ⟨timeoutMessage 0, ?_, by decide⟩
  unfold run_with_timeout
  have hnd : ¬ d ≤ 0 := by omega
  simp [hnd]

/-- Witness for C8: a subprocess needing one second against the zero
timeout. -/
theorem C8_timeout_zero_always_fails_witness :
    ∃ m, run_with_timeout SyncOperation.fetchOp (some 0) 1
        = Except.error (GitError.commandError m) ∧
      strContainsSub m "kill_after_timeout=0 s" = true :=
  C8_timeout_zero_always_fails SyncOperation.fetchOp 1 (by decide)

/-- C9: feeding begin- and end-marked lines for the phases COUNTING,
COMPRESSING and WRITING leaves every observed phase with all bits of the
stage mask (BEGIN and END) accumulated by bitwise OR in the per-phase
tracking, and an out-of-vocabulary phase name still produces exactly one
callback invocation tagged unknown, without any error. -/
theorem C9_progress_stage_accumulation :
    (lookupStage (feed_lines initProgress
        [ "Counting objects:   33% (1/3)"
        , "Counting objects: 100% (3/3), done."
        , "Compressing objects:  50% (1/2)"
        , "Compressing objects: 100% (2/2), done."
        , "Writing objects:  25% (1/4)"
        , "Writing objects: 100% (4/4), done." ]).1 Phase.counting
        &&& ProgressBits.STAGE_MASK = ProgressBits.STAGE_MASK ∧
     lookupStage (feed_lines initProgress
        [ "Counting objects:   33% (1/3)"
        , "Counting objects: 100% (3/3), done."
        , "Compressing objects:  50% (1/2)"
        , "Compressing objects: 100% (2/2), done."
        , "Writing objects:  25% (1/4)"
        , "Writing objects: 100% (4/4), done." ]).1 Phase.compressing
        &&& ProgressBits.STAGE_MASK = ProgressBits.STAGE_MASK ∧
     lookupStage (feed_lines initProgress
        [ "Counting objects:   33% (1/3)"
        , "Counting objects: 100% (3/3), done."
        , "Compressing objects:  50% (1/2)"
        , "Compressing objects: 100% (2/2), done."
        , "Writing objects:  25% (1/4)"
        , "Writing objects: 100% (4/4), done." ]).1 Phase.writing
        &&& ProgressBits.STAGE_MASK = ProgressBits.STAGE_MASK) ∧
    (parse_progress_line initProgress "Enumerating objects: 5, done.").2
      = [ProgressEvent.update Phase.unknownPhase
          (ProgressBits.BEGIN ||| ProgressBits.END) none none "done."] := by
  exact ⟨⟨rfl, rfl, rfl⟩, rfl⟩

/-- C10: a fetch summary line whose leading flag character is not among the
recognized markers makes FetchInfo._from_line fail with ValueError even when
the bracketed status token is one the classification table recognizes; in
particular the up-to-date line led by a question mark fails instead of
producing a HEAD_UPTODATE record. -/
theorem C10_unknown_marker_value_error (repo : List String) (line fetchLine : String)
    (c : Char) (rest : List Char) (hl : line.toList = c :: rest)
    (hc : fetchMarkers.contains c = false) :
    (∃ m, FetchInfo.from_line repo line fetchLine
      = Except.error (GitError.valueError m)) ∧
    classifyStatus "[up to date]" = some FetchStatus.upToDate ∧
    (∃ m, FetchInfo.from_line [] "? [up to date]      0.1.7RC    -> origin/0.1.7RC" ""
      = Except.error (GitError.valueError m)) := by
  refine ⟨?_, rfl, ⟨_, rfl⟩⟩
  have hlc : lineClassifies line = false := by
    unfold lineClassifies
    simp only [hl]
    cases hp : parseStatusChars (trimLeftList rest) with
    | none =>
      rw [hc]
      rfl
    | some pr =>
      obtain ⟨tok, rem⟩ := pr
      rw [hc]
      rfl
  obtain ⟨m, hm⟩ := parseFetchStderr_error_of_unclassified line hlc
  exact ⟨m, from_line_error_of_stderr repo line fetchLine _ hm⟩

/-- Witness for C10 at the test's question-mark line. -/
theorem C10_unknown_marker_value_error_witness :
    ∃ m, FetchInfo.from_line [] "? [up to date]      0.1.7RC    -> origin/0.1.7RC" ""
      = Except.error (GitError.valueError m) :=
  (C10_unknown_marker_value_error [] "? [up to date]      0.1.7RC    -> origin/0.1.7RC" ""
    '?' " [up to date]      0.1.7RC    -> origin/0.1.7RC".toList rfl rfl).2.2

end GitModel
